import Mathlib

/-
  Verification development for the `openings` API route of the
  BX-Studio-Webflow/hidden-level repository
  (src/server/src/app/api/openings/route.ts).

  The route performs three steps per request:
    1. `getAccessToken`: OAuth2 client-credentials exchange; any failure is
       re-thrown as a plain `Error("Failed to retrieve access token")`.
    2. `fetchJobRequisitions`: a do-while pagination loop with `$top=20` and
       `$skip` incremented by 20, looping while `skip < meta.totalNumber`.
    3. `restructureOpenings`: groups non-expired, non-"All"-department records
       into a department-keyed, insertion-ordered map of Opening values.

  The embedding below models the upstream (token endpoint and listing pages)
  as an abstract `Upstream` record, dates as integer timestamps, the
  insertion-ordered JavaScript object as an association list, and thrown
  exceptions as `Except` values.  The pagination loop is given explicit fuel
  (the source loop need not terminate against an adversarial upstream); with
  consistent `totalNumber` the required fuel is computed exactly.
-/

set_option autoImplicit false

namespace HiddenLevel

/-- A `nameCode` object of the upstream payload: an optional short name and a
code value.  `shortName` is optional because the source guards it with `??`
defaults. -/
structure NameCode where
  shortName : Option String
  codeValue : String
deriving DecidableEq, Repr

/-- One entry of `jobRequisition.organizationalUnits`. -/
structure OrgUnit where
  nameCode : NameCode
deriving DecidableEq, Repr

/-- One entry of `jobRequisition.postingInstructions`: a title code and an
optional expire date (modelled as an integer timestamp). -/
structure PostingInstruction where
  nameCode : NameCode
  expireDate : Option Int
deriving DecidableEq, Repr

/-- The `address` object of a requisition location. -/
structure Address where
  cityName : String
  countrySubdivisionLevel1 : Option NameCode
  countryCode : String
deriving DecidableEq, Repr

/-- One entry of `jobRequisition.requisitionLocations`. -/
structure ReqLocation where
  address : Address
deriving DecidableEq, Repr

/-- One entry of `jobRequisition.links`. -/
structure Link where
  title : String
  href : String
deriving DecidableEq, Repr

/-- A raw upstream job requisition record. -/
structure JobRequisition where
  organizationalUnits : List OrgUnit
  postingInstructions : List PostingInstruction
  requisitionLocations : List ReqLocation
  links : List Link
  workerTypeCode : Option NameCode
deriving DecidableEq, Repr

/-- The pagination metadata of a listing response. -/
structure ReqMeta where
  totalNumber : Nat
deriving DecidableEq, Repr

/-- The body shape of a listing response, and of the consolidated result of
the pagination loop. -/
structure Requisition where
  jobRequisitions : List JobRequisition
  meta : ReqMeta
deriving DecidableEq, Repr

/-- The transformed record pushed into the department map. -/
structure Opening where
  jobTitle : String
  openingLink : String
  cityName : String
  codeValue : String
  countryCode : String
  workerTypeCode : String
  expireDate : Option Int
deriving DecidableEq, Repr

/-- The department-grouped output: an insertion-ordered association list
modelling the JavaScript object `jobMap`. -/
abbrev OpeningsByDepartment := List (String × List Opening)

/-- The three TypeErrors that indexing the first element of an empty list
raises in `restructureOpenings`, in the order the source dereferences them. -/
inductive TransformError where
  | emptyOrganizationalUnits
  | emptyPostingInstructions
  | emptyRequisitionLocations
deriving DecidableEq, Repr

/-- The message a raised TypeError carries (modelled; the source does not
format these itself, the runtime does). -/
def transformErrorMessage : TransformError → String
  | .emptyOrganizationalUnits => "Cannot read properties of undefined (reading nameCode)"
  | .emptyPostingInstructions => "Cannot read properties of undefined (reading nameCode)"
  | .emptyRequisitionLocations => "Cannot read properties of undefined (reading address)"

/-- `jobRequisition.links.find((link) => link.title === "HL External Career
Center")?.href ?? ""` from the source. -/
def openingLink (r : JobRequisition) : String :=
  (Option.map Link.href (r.links.find? (fun l => l.title = "HL External Career Center"))).getD ""

/-- `expireDate && new Date(expireDate) < currentDate` from the source: an
absent date is never expired; a present date is expired iff strictly earlier
than the current date. -/
def isExpired (now : Int) (expireDate : Option Int) : Bool :=
  match expireDate with
  | some d => decide (d < now)
  | none => false

/-- The Opening object pushed by the source for a record that passes both
filters, given the first posting instruction and first requisition location. -/
def mkOpening (r : JobRequisition) (pi : PostingInstruction) (loc : ReqLocation) : Opening :=
  { jobTitle := pi.nameCode.codeValue
    openingLink := openingLink r
    cityName := loc.address.cityName
    codeValue := (Option.map NameCode.codeValue loc.address.countrySubdivisionLevel1).getD ""
    countryCode := loc.address.countryCode
    workerTypeCode := (r.workerTypeCode.bind NameCode.shortName).getD ""
    expireDate := pi.expireDate }

/-- The per-record body of the `forEach` in `restructureOpenings`, with the
source's exact evaluation order: index `organizationalUnits[0]` (TypeError if
empty), skip if department is "All", then index `postingInstructions[0]` and
`requisitionLocations[0]` (TypeError if empty), then skip if expired,
otherwise yield the department key and the Opening. -/
def processRequisition (now : Int) (r : JobRequisition) :
    Except TransformError (Option (String × Opening)) :=
  match r.organizationalUnits.head? with
  | none => .error .emptyOrganizationalUnits
  | some ou =>
    if ou.nameCode.shortName.getD "Others" = "All" then .ok none
    else
      match r.postingInstructions.head? with
      | none => .error .emptyPostingInstructions
      | some pi =>
        match r.requisitionLocations.head? with
        | none => .error .emptyRequisitionLocations
        | some loc =>
          if isExpired now pi.expireDate then .ok none
          else .ok (some (ou.nameCode.shortName.getD "Others", mkOpening r pi loc))

/-- The department/Opening pair a record contributes, if any (`none` both for
records the source skips and for records on which it throws). -/
def kept (now : Int) (r : JobRequisition) : Option (String × Opening) :=
  match processRequisition now r with
  | .ok (some p) => some p
  | _ => none

/-- `jobMap[department].push(...)`, creating `jobMap[department] = []` first
when absent: append to the first entry with this key, or append a new entry at
the end. -/
def pushOpening (m : OpeningsByDepartment) (d : String) (o : Opening) : OpeningsByDepartment :=
  match m with
  | [] => [(d, [o])]
  | (k, v) :: rest => if k = d then (k, v ++ [o]) :: rest else (k, v) :: pushOpening rest d o

/-- The `forEach` loop of `restructureOpenings` over the record list, with the
accumulated `jobMap`; a TypeError aborts the whole traversal. -/
def restructureList (now : Int) (acc : OpeningsByDepartment) :
    List JobRequisition → Except TransformError OpeningsByDepartment
  | [] => .ok acc
  | r :: rest =>
    match processRequisition now r with
    | .error e => .error e
    | .ok none => restructureList now acc rest
    | .ok (some (d, o)) => restructureList now (pushOpening acc d o) rest

/-- `restructureOpenings` from the source, with the current wall-clock date
passed explicitly. -/
def restructureOpenings (now : Int) (openings : Requisition) :
    Except TransformError OpeningsByDepartment :=
  restructureList now [] openings.jobRequisitions

/-- The bucket stored under key `d` (empty when the key is absent): reads the
first entry with this key, as JavaScript property access does. -/
def valueAt (d : String) : OpeningsByDepartment → List Opening
  | [] => []
  | (k, v) :: rest => if k = d then v else valueAt d rest

/-- The openings of the department/Opening pairs whose department is `d`, in
input order. -/
def bucketPairs (d : String) (pairs : List (String × Opening)) : List Opening :=
  pairs.filterMap (fun p => if p.1 = d then some p.2 else none)

/-- Key-insertion step: a key already present leaves the key list unchanged,
a new key is appended at the end (first-encounter order). -/
def insertKey (ks : List String) (d : String) : List String :=
  if d ∈ ks then ks else ks ++ [d]

/-- Folding `pushOpening` over a pair list, starting from an accumulated map. -/
def groupPairs (acc : OpeningsByDepartment) (pairs : List (String × Opening)) :
    OpeningsByDepartment :=
  pairs.foldl (fun a p => pushOpening a p.1 p.2) acc

/-- An error thrown by an axios page request: its message and the optional
`response.status` of the upstream reply. -/
structure AxiosErr where
  message : String
  status : Option Nat
deriving DecidableEq, Repr

/-- An error propagated to the route handler's catch block: the `message` of
the thrown value and its `response?.status` when it has one (a plain `Error`
has none). -/
structure ThrownError where
  message : String
  responseStatus : Option Nat
deriving DecidableEq, Repr

/-- The abstract upstream: the result of the token-endpoint exchange (error
status, or the access token) and, for each `$skip` value, the result of the
listing page request (an axios error, or the page's records together with the
`meta.totalNumber` it reports). -/
structure Upstream where
  tokenResult : Except Nat String
  page : Nat → Except AxiosErr (List JobRequisition × Nat)

/-- `getAccessToken` from the source: any failure of the exchange is caught
and re-thrown as a plain `Error("Failed to retrieve access token")`, which
carries no upstream response status. -/
def getAccessToken (u : Upstream) : Except ThrownError String :=
  match u.tokenResult with
  | .error _ => .error { message := "Failed to retrieve access token", responseStatus := none }
  | .ok token => .ok token

/-- The do-while pagination loop of `fetchJobRequisitions`: request the page
at `skip`, append its records, read `totalNumber` from the response, increment
`skip` by 20, and continue while `skip < totalNumber`.  `reqs` records the
`$skip` values issued so far; `fuel` bounds the iteration count (`none` means
the fuel ran out). -/
def fetchLoop (u : Upstream) :
    Nat → Nat → List Nat → List JobRequisition →
    Option (List Nat × Except ThrownError Requisition)
  | 0, _, _, _ => none
  | fuel + 1, skip, reqs, acc =>
    match u.page skip with
    | .error e => some (reqs ++ [skip], .error { message := e.message, responseStatus := e.status })
    | .ok (recs, t) =>
      if skip + 20 < t then fetchLoop u fuel (skip + 20) (reqs ++ [skip]) (acc ++ recs)
      else some (reqs ++ [skip], .ok { jobRequisitions := acc ++ recs, meta := { totalNumber := t } })

/-- `fetchJobRequisitions` from the source: obtain the token, then run the
pagination loop from `skip = 0`; the list of issued `$skip` values is returned
alongside the consolidated result. -/
def fetchJobRequisitions (u : Upstream) (fuel : Nat) :
    Option (List Nat × Except ThrownError Requisition) :=
  match getAccessToken u with
  | .error e => some ([], .error e)
  | .ok _ => fetchLoop u fuel 0 [] []

/-- The JSON body of the handler's response: the grouped openings on success,
or `{ error: message }` on failure. -/
inductive Body where
  | ok (openings : OpeningsByDepartment)
  | err (message : String)
deriving DecidableEq, Repr

/-- An HTTP response of the handler. -/
structure Response where
  status : Nat
  body : Body
deriving DecidableEq, Repr

/-- The `GET` handler: fetch, transform, respond 200 with the grouped
openings; any caught error yields `{ error: message }` with
`response?.status || 500`. -/
def GET (now : Int) (u : Upstream) (fuel : Nat) : Option Response :=
  match fetchJobRequisitions u fuel with
  | none => none
  | some (_, .error e) => some { status := e.responseStatus.getD 500, body := .err e.message }
  | some (_, .ok req) =>
    match restructureOpenings now req with
    | .error te => some { status := 500, body := .err (transformErrorMessage te) }
    | .ok m => some { status := 200, body := .ok m }

/-- The `$skip` values the loop issues from offset `skip` when every page
reports total count `T`. -/
def pageSkips (T skip : Nat) : List Nat :=
  if h : skip + 20 < T then skip :: pageSkips T (skip + 20) else [skip]
termination_by T - skip
decreasing_by omega

/-- Concrete nameCode used by witness inputs. -/
def sampleNameCode : NameCode := { shortName := some "Engineering", codeValue := "ENG" }

/-- Concrete organizational unit used by witness inputs. -/
def sampleOrgUnit : OrgUnit := { nameCode := sampleNameCode }

/-- Concrete posting instruction expiring at time 200. -/
def samplePosting : PostingInstruction :=
  { nameCode := { shortName := none, codeValue := "Software Engineer" }, expireDate := some 200 }

/-- Concrete requisition location. -/
def sampleLocation : ReqLocation :=
  { address := { cityName := "Austin"
                 countrySubdivisionLevel1 := some { shortName := none, codeValue := "TX" }
                 countryCode := "US" } }

/-- Concrete career-center link. -/
def sampleLink : Link := { title := "HL External Career Center", href := "https://careers.example/job/1" }

/-- A well-formed requisition in department "Engineering", not expired at
time 100. -/
def sampleReq : JobRequisition :=
  { organizationalUnits := [sampleOrgUnit]
    postingInstructions := [samplePosting]
    requisitionLocations := [sampleLocation]
    links := [sampleLink]
    workerTypeCode := some { shortName := some "FT", codeValue := "F" } }

/-- Concrete organizational unit whose nameCode has no short name. -/
def sampleOrgUnitNoName : OrgUnit := { nameCode := { shortName := none, codeValue := "X" } }

/-- Concrete posting instruction already expired at time 100 (expire date 50). -/
def samplePostingExpired : PostingInstruction := { samplePosting with expireDate := some 50 }

/-- Concrete posting instruction with no expire date. -/
def samplePostingNoDate : PostingInstruction := { samplePosting with expireDate := none }

/-- The sample requisition with department "All". -/
def allReq : JobRequisition :=
  { sampleReq with organizationalUnits := [{ nameCode := { shortName := some "All", codeValue := "ALL" } }] }

/-- The sample requisition with no department short name. -/
def othersReq : JobRequisition :=
  { sampleReq with organizationalUnits := [sampleOrgUnitNoName] }

/-- The sample requisition already expired at time 100 (expire date 50). -/
def expiredReq : JobRequisition :=
  { sampleReq with postingInstructions := [samplePostingExpired] }

/-- The sample requisition with no expire date. -/
def noDateReq : JobRequisition :=
  { sampleReq with postingInstructions := [samplePostingNoDate] }

/-- The sample requisition with no links. -/
def noLinkReq : JobRequisition := { sampleReq with links := [] }

/-- The sample requisition with an empty organizational-unit list. -/
def emptyOrgReq : JobRequisition := { sampleReq with organizationalUnits := [] }

/-- The sample requisition with an empty posting-instruction list. -/
def emptyPostReq : JobRequisition := { sampleReq with postingInstructions := [] }

/-- The sample requisition with an empty location list. -/
def emptyLocReq : JobRequisition := { sampleReq with requisitionLocations := [] }

/-- An upstream whose token endpoint fails with HTTP 401. -/
def tokenFailUpstream : Upstream :=
  { tokenResult := .error 401, page := fun _ => .ok ([], 0) }

/-- An upstream whose token exchange succeeds but whose every page request
fails with HTTP 503. -/
def pageFailUpstream : Upstream :=
  { tokenResult := .ok "token"
    page := fun _ => .error { message := "Request failed with status code 503", status := some 503 } }

/-- Pages of a well-behaved upstream holding 25 records in total. -/
def pageRecs25 (s : Nat) : List JobRequisition := List.replicate (min 20 (25 - s)) sampleReq

/-- A well-behaved upstream reporting totalNumber 25 on every page. -/
def upstream25 : Upstream :=
  { tokenResult := .ok "token", page := fun s => .ok (pageRecs25 s, 25) }

/-! ### Pagination lemmas -/

theorem pageSkips_length (T skip : Nat) :
    (pageSkips T skip).length = if T ≤ skip + 20 then 1 else (T - skip + 19) / 20 := by
  unfold pageSkips
  split
  · have ih := pageSkips_length T (skip + 20)
    rename_i h
    rw [if_neg (by omega), List.length_cons, ih]
    split
    · omega
    · omega
  · rename_i h
    rw [if_pos (by omega)]
    rfl
termination_by T - skip
decreasing_by omega

theorem pageSkips_zero_length (T : Nat) :
    (pageSkips T 0).length = if T = 0 then 1 else (T + 19) / 20 := by
  rw [pageSkips_length]
  rcases Nat.eq_zero_or_pos T with h0 | h0
  · subst h0; rfl
  · rw [if_neg (Nat.pos_iff_ne_zero.mp h0)]
    split
    · rename_i h
      omega
    · rename_i h
      omega

theorem pageSkips_arith (T skip : Nat) :
    pageSkips T skip = (List.range (pageSkips T skip).length).map (fun i => skip + 20 * i) := by
  unfold pageSkips
  split
  · have ih := pageSkips_arith T (skip + 20)
    rename_i h
    rw [List.length_cons, List.range_succ_eq_map, List.map_cons, List.map_map]
    simp only [List.cons.injEq]
    refine ⟨by omega, ?_⟩
    conv_lhs => rw [ih]
    refine List.map_congr_left ?_
    intro i _
    simp only [Function.comp_apply]
    omega
  · simp [List.range_succ]
termination_by T - skip
decreasing_by omega

theorem pageSkips_join_length (T : Nat) (pageRecs : Nat → List JobRequisition)
    (hlen : ∀ s, (pageRecs s).length = min 20 (T - s)) (skip : Nat) :
    (((pageSkips T skip).map pageRecs).flatten).length = T - skip := by
  unfold pageSkips
  split
  · have ih := pageSkips_join_length T pageRecs hlen (skip + 20)
    rename_i h
    rw [List.map_cons, List.flatten_cons, List.length_append, ih, hlen]
    omega
  · rename_i h
    simp [hlen]
    omega
termination_by T - skip
decreasing_by omega

theorem fetchLoop_consistent (u : Upstream) (pageRecs : Nat → List JobRequisition) (T : Nat)
    (hpage : ∀ s, u.page s = .ok (pageRecs s, T)) :
    ∀ fuel skip reqs acc, (pageSkips T skip).length ≤ fuel →
      fetchLoop u fuel skip reqs acc =
        some (reqs ++ pageSkips T skip,
          .ok { jobRequisitions := acc ++ ((pageSkips T skip).map pageRecs).flatten
                meta := { totalNumber := T } }) := by
  intro fuel
  induction fuel with
  | zero =>
    intro skip reqs acc hfuel
    exfalso
    have : 0 < (pageSkips T skip).length := by
      unfold pageSkips
      split <;> simp
    omega
  | succ fuel ih =>
    intro skip reqs acc hfuel
    rw [fetchLoop, hpage skip]
    dsimp only
    by_cases h : skip + 20 < T
    · rw [if_pos h]
      have hskips : pageSkips T skip = skip :: pageSkips T (skip + 20) := by
        conv_lhs => rw [pageSkips.eq_def]
        rw [dif_pos h]
      have hlen : (pageSkips T (skip + 20)).length ≤ fuel := by
        rw [hskips] at hfuel
        simpa using hfuel
      rw [ih (skip + 20) (reqs ++ [skip]) (acc ++ pageRecs skip) hlen, hskips]
      simp only [List.map_cons, List.flatten_cons, List.append_assoc, List.singleton_append,
        List.cons_append, List.nil_append]
    · rw [if_neg h]
      have hskips : pageSkips T skip = [skip] := by
        conv_lhs => rw [pageSkips.eq_def]
        rw [dif_neg h]
      rw [hskips]
      simp only [List.map_cons, List.map_nil, List.flatten_cons, List.flatten_nil,
        List.append_nil]

/-! ### Per-record transform lemmas -/

theorem kept_of_process_error {now : Int} {r : JobRequisition} {e : TransformError}
    (h : processRequisition now r = .error e) : kept now r = none := by
  unfold kept
  rw [h]

theorem kept_of_process_none {now : Int} {r : JobRequisition}
    (h : processRequisition now r = .ok none) : kept now r = none := by
  unfold kept
  rw [h]

theorem kept_of_process_some {now : Int} {r : JobRequisition} {p : String × Opening}
    (h : processRequisition now r = .ok (some p)) : kept now r = some p := by
  unfold kept
  rw [h]

theorem process_skipped_all {now : Int} {r : JobRequisition} {ou : OrgUnit}
    (hou : r.organizationalUnits.head? = some ou)
    (hall : ou.nameCode.shortName.getD "Others" = "All") :
    processRequisition now r = .ok none := by
  unfold processRequisition
  rw [hou]
  simp [hall]

theorem process_included {now : Int} {r : JobRequisition} {ou : OrgUnit}
    {pi : PostingInstruction} {loc : ReqLocation}
    (hou : r.organizationalUnits.head? = some ou)
    (hall : ou.nameCode.shortName.getD "Others" ≠ "All")
    (hpi : r.postingInstructions.head? = some pi)
    (hloc : r.requisitionLocations.head? = some loc)
    (hexp : isExpired now pi.expireDate = false) :
    processRequisition now r =
      .ok (some (ou.nameCode.shortName.getD "Others", mkOpening r pi loc)) := by
  unfold processRequisition
  rw [hou]
  dsimp only
  rw [if_neg hall, hpi]
  dsimp only
  rw [hloc]
  dsimp only
  rw [hexp]
  simp

theorem process_ok_some {now : Int} {r : JobRequisition} {d : String} {o : Opening}
    (h : processRequisition now r = .ok (some (d, o))) :
    ∃ ou pi loc,
      r.organizationalUnits.head? = some ou ∧
      r.postingInstructions.head? = some pi ∧
      r.requisitionLocations.head? = some loc ∧
      ou.nameCode.shortName.getD "Others" = d ∧
      d ≠ "All" ∧
      isExpired now pi.expireDate = false ∧
      o = mkOpening r pi loc := by
  unfold processRequisition at h
  rcases hou : r.organizationalUnits.head? with _ | ou
  · rw [hou] at h
    exact absurd h (by simp)
  · rw [hou] at h
    dsimp only at h
    by_cases hall : ou.nameCode.shortName.getD "Others" = "All"
    · rw [if_pos hall] at h
      exact absurd h (by simp)
    · rw [if_neg hall] at h
      rcases hpi : r.postingInstructions.head? with _ | pi
      · rw [hpi] at h
        exact absurd h (by simp)
      · rw [hpi] at h
        dsimp only at h
        rcases hloc : r.requisitionLocations.head? with _ | loc
        · rw [hloc] at h
          exact absurd h (by simp)
        · rw [hloc] at h
          dsimp only at h
          rcases hexp : isExpired now pi.expireDate with _ | _
          · rw [hexp] at h
            simp only [Bool.false_eq_true, if_false, Except.ok.injEq, Option.some.injEq,
              Prod.mk.injEq] at h
            exact ⟨ou, pi, loc, rfl, rfl, rfl, h.1, h.1 ▸ hall, hexp, h.2.symm⟩
          · rw [hexp] at h
            simp at h

theorem process_of_kept {now : Int} {r : JobRequisition} {p : String × Opening}
    (h : kept now r = some p) : processRequisition now r = .ok (some p) := by
  unfold kept at h
  rcases hh : processRequisition now r with e | op
  · rw [hh] at h
    exact absurd h (by simp)
  · rw [hh] at h
    rcases op with _ | q
    · exact absurd h (by simp)
    · simp only [Option.some.injEq] at h
      rw [h]

theorem process_error_orgUnits {now : Int} {r : JobRequisition}
    (h : r.organizationalUnits = []) :
    processRequisition now r = .error .emptyOrganizationalUnits := by
  unfold processRequisition
  rw [h]
  rfl

theorem process_error_postings {now : Int} {r : JobRequisition} {ou : OrgUnit}
    (hou : r.organizationalUnits.head? = some ou)
    (hall : ou.nameCode.shortName.getD "Others" ≠ "All")
    (hpost : r.postingInstructions = []) :
    processRequisition now r = .error .emptyPostingInstructions := by
  unfold processRequisition
  rw [hou]
  dsimp only
  rw [if_neg hall, hpost]
  rfl

theorem process_error_locations {now : Int} {r : JobRequisition} {ou : OrgUnit}
    {pi : PostingInstruction}
    (hou : r.organizationalUnits.head? = some ou)
    (hall : ou.nameCode.shortName.getD "Others" ≠ "All")
    (hpi : r.postingInstructions.head? = some pi)
    (hlocs : r.requisitionLocations = []) :
    processRequisition now r = .error .emptyRequisitionLocations := by
  unfold processRequisition
  rw [hou]
  dsimp only
  rw [if_neg hall, hpi]
  dsimp only
  rw [hlocs]
  rfl

/-! ### jobMap (association list) lemmas -/

theorem valueAt_pushOpening (d k : String) (o : Opening) (m : OpeningsByDepartment) :
    valueAt d (pushOpening m k o) =
      if k = d then valueAt d m ++ [o] else valueAt d m := by
  induction m with
  | nil =>
    simp only [pushOpening, valueAt]
    by_cases h : k = d
    · simp [h]
    · simp [h]
  | cons p rest ih =>
    rcases p with ⟨k0, v0⟩
    simp only [pushOpening]
    by_cases h0 : k0 = k
    · rw [if_pos h0]
      by_cases h1 : k0 = d
      · have hk : k = d := by rw [← h0]; exact h1
        simp only [valueAt, if_pos h1, if_pos hk]
      · have hk : ¬(k = d) := by rw [← h0]; exact h1
        simp only [valueAt, if_neg h1, if_neg hk]
    · rw [if_neg h0]
      by_cases h1 : k0 = d
      · have hk : ¬(k = d) := by
          intro hkd
          exact h0 (h1.trans hkd.symm)
        simp only [valueAt, if_pos h1, if_neg hk]
      · simp only [valueAt, if_neg h1]
        exact ih

theorem keys_pushOpening (k : String) (o : Opening) (m : OpeningsByDepartment) :
    (pushOpening m k o).map Prod.fst = insertKey (m.map Prod.fst) k := by
  induction m with
  | nil => simp [pushOpening, insertKey]
  | cons p rest ih =>
    rcases p with ⟨k0, v0⟩
    simp only [pushOpening]
    by_cases h0 : k0 = k
    · rw [if_pos h0]
      subst h0
      simp [insertKey]
    · rw [if_neg h0]
      simp only [List.map_cons, ih, insertKey]
      have hne : ¬(k = k0) := fun hkd => h0 hkd.symm
      by_cases hmem : k ∈ rest.map Prod.fst
      · rw [if_pos hmem, if_pos (List.mem_cons.mpr (Or.inr hmem))]
      · rw [if_neg hmem, if_neg (by simp [List.mem_cons, hne, hmem])]
        simp

theorem groupPairs_nil (acc : OpeningsByDepartment) : groupPairs acc [] = acc := rfl

theorem groupPairs_cons (acc : OpeningsByDepartment) (p : String × Opening)
    (pairs : List (String × Opening)) :
    groupPairs acc (p :: pairs) = groupPairs (pushOpening acc p.1 p.2) pairs := rfl

theorem valueAt_groupPairs (d : String) (acc : OpeningsByDepartment)
    (pairs : List (String × Opening)) :
    valueAt d (groupPairs acc pairs) = valueAt d acc ++ bucketPairs d pairs := by
  induction pairs generalizing acc with
  | nil => simp [groupPairs, bucketPairs]
  | cons p rest ih =>
    rw [groupPairs_cons, ih, valueAt_pushOpening]
    unfold bucketPairs
    rw [List.filterMap_cons]
    by_cases h : p.1 = d
    · rw [if_pos h, if_pos h]
      simp [bucketPairs, List.append_assoc]
    · rw [if_neg h, if_neg h]

theorem keys_groupPairs (acc : OpeningsByDepartment) (pairs : List (String × Opening)) :
    (groupPairs acc pairs).map Prod.fst =
      (pairs.map Prod.fst).foldl insertKey (acc.map Prod.fst) := by
  induction pairs generalizing acc with
  | nil => rfl
  | cons p rest ih =>
    rw [groupPairs_cons, ih, keys_pushOpening]
    rfl

/-! ### restructureList lemmas -/

theorem restructureList_ok_eq {now : Int} {acc m : OpeningsByDepartment}
    {rs : List JobRequisition} (h : restructureList now acc rs = .ok m) :
    m = groupPairs acc (rs.filterMap (kept now)) := by
  induction rs generalizing acc with
  | nil =>
    simp only [restructureList, Except.ok.injEq] at h
    simp [h, groupPairs]
  | cons r rest ih =>
    rw [restructureList] at h
    rcases hp : processRequisition now r with e | op
    · rw [hp] at h
      exact absurd h (by simp)
    · rw [hp] at h
      rcases op with _ | ⟨d, o⟩
      · rw [List.filterMap_cons, kept_of_process_none hp]
        exact ih h
      · rw [List.filterMap_cons, kept_of_process_some hp, groupPairs_cons]
        exact ih h

theorem restructureList_error_of_mem {now : Int} {acc : OpeningsByDepartment}
    {rs : List JobRequisition} {r : JobRequisition} {e : TransformError}
    (hr : r ∈ rs) (hp : processRequisition now r = .error e) :
    ∃ e2, restructureList now acc rs = .error e2 := by
  induction rs generalizing acc with
  | nil => exact absurd hr (List.not_mem_nil r)
  | cons r0 rest ih =>
    rcases List.mem_cons.mp hr with heq | hmem
    · subst heq
      exact ⟨e, by rw [restructureList, hp]⟩
    · rw [restructureList]
      rcases hp0 : processRequisition now r0 with e0 | op
      · exact ⟨e0, rfl⟩
      · rcases op with _ | ⟨d, o⟩
        · exact ih hmem
        · exact ih hmem

/-! ### Handler-level lemmas -/

theorem GET_fetch_error {now : Int} {u : Upstream} {fuel : Nat} {sk : List Nat}
    {e : ThrownError} (h : fetchJobRequisitions u fuel = some (sk, .error e)) :
    GET now u fuel = some { status := e.responseStatus.getD 500, body := .err e.message } := by
  unfold GET
  rw [h]

theorem GET_transform_error {now : Int} {u : Upstream} {fuel : Nat} {sk : List Nat}
    {req : Requisition} {te : TransformError}
    (hf : fetchJobRequisitions u fuel = some (sk, .ok req))
    (ht : restructureOpenings now req = .error te) :
    GET now u fuel = some { status := 500, body := .err (transformErrorMessage te) } := by
  unfold GET
  rw [hf]
  dsimp only
  rw [ht]

/-! ### Claim theorems -/

/-- C1: for every upstream totalNumber `T` reported consistently on each page
response (each page holding the records of its window), the paginated fetch
issues exactly `ceil(T/20)` page requests — exactly 1 when `T = 0` — with
`$skip` values `0, 20, 40, ...`, and the returned `jobRequisitions` sequence
is the concatenation of the pages' records in request order, with length
`T`. -/
theorem C1_pagination_complete (u : Upstream) (pageRecs : Nat → List JobRequisition)
    (T fuel : Nat) (token : String)
    (htok : u.tokenResult = .ok token)
    (hpage : ∀ s, u.page s = .ok (pageRecs s, T))
    (hlen : ∀ s, (pageRecs s).length = min 20 (T - s))
    (hfuel : (if T = 0 then 1 else (T + 19) / 20) ≤ fuel) :
    ∃ skips : List Nat,
      fetchJobRequisitions u fuel =
        some (skips, .ok { jobRequisitions := (skips.map pageRecs).flatten
                           meta := { totalNumber := T } }) ∧
      skips.length = (if T = 0 then 1 else (T + 19) / 20) ∧
      skips = (List.range skips.length).map (fun i => 20 * i) ∧
      ((skips.map pageRecs).flatten).length = T := by
  refine ⟨pageSkips T 0, ?_, ?_, ?_, ?_⟩
  · unfold fetchJobRequisitions getAccessToken
    rw [htok]
    dsimp only
    rw [fetchLoop_consistent u pageRecs T hpage fuel 0 [] []
      (by rw [pageSkips_zero_length]; exact hfuel)]
    simp
  · rw [pageSkips_zero_length]
  · conv_lhs => rw [pageSkips_arith T 0]
    refine List.map_congr_left ?_
    intro i _
    omega
  · rw [pageSkips_join_length T pageRecs hlen 0]
    omega

/-- C1 witness: a concrete well-behaved upstream with 25 records is fetched
in two pages with skips 0 and 20 and 25 records total. -/
theorem C1_pagination_complete_witness :
    ∃ skips : List Nat,
      fetchJobRequisitions upstream25 2 =
        some (skips, .ok { jobRequisitions := (skips.map pageRecs25).flatten
                           meta := { totalNumber := 25 } }) ∧
      skips.length = (if (25 : Nat) = 0 then 1 else (25 + 19) / 20) ∧
      skips = (List.range skips.length).map (fun i => 20 * i) ∧
      ((skips.map pageRecs25).flatten).length = 25 :=
  C1_pagination_complete upstream25 pageRecs25 25 2 "token" rfl (fun _ => rfl)
    (fun s => by simp [pageRecs25]) (by norm_num)

/-- C2 counterexample: when the token endpoint fails with HTTP 401, the
handler responds with status 500, not the upstream status 401 the claim
asserts (the re-thrown plain Error carries no `response.status`). -/
theorem C2_status_counterexample :
    GET 0 tokenFailUpstream 1 =
      some { status := 500, body := .err "Failed to retrieve access token" }
    ∧ (500 : Nat) ≠ 401 := by
  constructor
  · rfl
  · decide

/-- C2 (amended): for every failure of the token-endpoint exchange, whatever
its upstream status, the handler responds with HTTP status 500 (the token
failure is re-thrown as a plain error with no upstream status attached) and
the JSON body `{ error: "Failed to retrieve access token" }`, a fixed opaque
message that never includes the upstream response body. -/
theorem C2_token_failure_response (now : Int) (u : Upstream) (fuel : Nat) (s : Nat)
    (h : u.tokenResult = .error s) :
    GET now u fuel = some { status := 500, body := .err "Failed to retrieve access token" } := by
  unfold GET fetchJobRequisitions getAccessToken
  rw [h]
  rfl

/-- C2 witness: the amended statement at the concrete 401 upstream. -/
theorem C2_token_failure_response_witness :
    GET 0 tokenFailUpstream 2 =
      some { status := 500, body := .err "Failed to retrieve access token" } :=
  C2_token_failure_response 0 tokenFailUpstream 2 401 rfl

/-- C3: a requisition whose first posting instruction has an expire date
strictly earlier than the current date contributes no department/Opening pair
(so no Opening in any department bucket); a requisition with no expire date
that reaches the expiration check is never excluded on expiration grounds. -/
theorem C3_expiration_filter (now : Int) (r : JobRequisition) :
    (∀ pi d, r.postingInstructions.head? = some pi → pi.expireDate = some d →
       d < now → kept now r = none)
    ∧ (∀ ou pi loc, r.organizationalUnits.head? = some ou →
        ou.nameCode.shortName.getD "Others" ≠ "All" →
        r.postingInstructions.head? = some pi → pi.expireDate = none →
        r.requisitionLocations.head? = some loc →
        processRequisition now r =
          .ok (some (ou.nameCode.shortName.getD "Others", mkOpening r pi loc))) := by
  constructor
  · intro pi d hpi hdate hlt
    rcases hou : r.organizationalUnits.head? with _ | ou
    · have hp : processRequisition now r = .error .emptyOrganizationalUnits := by
        unfold processRequisition
        rw [hou]
      exact kept_of_process_error hp
    · by_cases hall : ou.nameCode.shortName.getD "Others" = "All"
      · exact kept_of_process_none (process_skipped_all hou hall)
      · rcases hloc : r.requisitionLocations.head? with _ | loc
        · exact kept_of_process_error (process_error_locations hou hall hpi
            (List.head?_eq_none_iff.mp hloc))
        · refine kept_of_process_none ?_
          unfold processRequisition
          rw [hou]
          dsimp only
          rw [if_neg hall, hpi]
          dsimp only
          rw [hloc]
          dsimp only
          rw [show isExpired now pi.expireDate = true from by simp [isExpired, hdate, hlt]]
          simp
  · intro ou pi loc hou hall hpi hdate hloc
    exact process_included hou hall hpi hloc (by simp [isExpired, hdate])

/-- C3 witness: the expired sample record contributes nothing at time 100;
the no-expire-date sample record is retained at time 100. -/
theorem C3_expiration_filter_witness :
    kept 100 expiredReq = none
    ∧ processRequisition 100 noDateReq =
        .ok (some ("Engineering", mkOpening noDateReq samplePostingNoDate sampleLocation)) :=
  ⟨(C3_expiration_filter 100 expiredReq).1 samplePostingExpired 50 rfl rfl (by decide),
   (C3_expiration_filter 100 noDateReq).2 sampleOrgUnit samplePostingNoDate sampleLocation
     rfl (by decide) rfl rfl rfl⟩

/-- C4: a requisition whose department is "All" (case-sensitive) contributes
no department/Opening pair; every department bucket of a successful output is
exactly the Openings of the kept records of that department, in order, and
every Opening in any bucket arises from a member requisition that is
non-expired and whose department is not "All". -/
theorem C4_output_invariant (now : Int) (rs : List JobRequisition) (meta : ReqMeta)
    (m : OpeningsByDepartment)
    (h : restructureOpenings now { jobRequisitions := rs, meta := meta } = .ok m) :
    (∀ r ∈ rs, ∀ ou, r.organizationalUnits.head? = some ou →
       ou.nameCode.shortName.getD "Others" = "All" → kept now r = none)
    ∧ (∀ d, valueAt d m = bucketPairs d (rs.filterMap (kept now)))
    ∧ (∀ d, ∀ o ∈ valueAt d m, ∃ r ∈ rs, ∃ ou pi loc,
        r.organizationalUnits.head? = some ou ∧
        r.postingInstructions.head? = some pi ∧
        r.requisitionLocations.head? = some loc ∧
        ou.nameCode.shortName.getD "Others" = d ∧
        d ≠ "All" ∧
        isExpired now pi.expireDate = false ∧
        o = mkOpening r pi loc) := by
  have hm : m = groupPairs [] (rs.filterMap (kept now)) := restructureList_ok_eq h
  have hchar : ∀ d, valueAt d m = bucketPairs d (rs.filterMap (kept now)) := by
    intro d
    rw [hm, valueAt_groupPairs]
    rw [show valueAt d ([] : OpeningsByDepartment) = [] from rfl, List.nil_append]
  refine ⟨?_, hchar, ?_⟩
  · intro r _ ou hou hall
    exact kept_of_process_none (process_skipped_all hou hall)
  · intro d o ho
    rw [hchar d] at ho
    unfold bucketPairs at ho
    rcases List.mem_filterMap.mp ho with ⟨p, hpmem, hpeq⟩
    rcases p with ⟨d0, o0⟩
    by_cases hpd : d0 = d
    · subst hpd
      rw [if_pos rfl] at hpeq
      have ho0 : o0 = o := by
        simpa using hpeq
      subst ho0
      rcases List.mem_filterMap.mp hpmem with ⟨r, hrmem, hrkept⟩
      obtain ⟨ou, pi, loc, h1, h2, h3, h4, h5, h6, h7⟩ :=
        process_ok_some (process_of_kept hrkept)
      exact ⟨r, hrmem, ou, pi, loc, h1, h2, h3, h4, h5, h6, h7⟩
    · rw [if_neg hpd] at hpeq
      exact absurd hpeq (by simp)

/-- C4 witness: the invariant at a concrete input holding one "Engineering"
record and one "All" record. -/
theorem C4_output_invariant_witness :
    valueAt "Engineering"
        [("Engineering", [mkOpening sampleReq samplePosting sampleLocation])] =
      bucketPairs "Engineering" ([sampleReq, allReq].filterMap (kept 100)) :=
  (C4_output_invariant 100 [sampleReq, allReq] { totalNumber := 2 }
    [("Engineering", [mkOpening sampleReq samplePosting sampleLocation])]
    rfl).2.1 "Engineering"

/-- C5: the transform indexes the first element of `organizationalUnits`,
`postingInstructions`, and `requisitionLocations` with no emptiness guard:
a record with an empty `organizationalUnits` list — or, for a record passing
the "All" check, an empty `postingInstructions` or `requisitionLocations`
list — reaches the error branch and makes the whole traversal fail, and a
transform error makes the handler answer the whole request with an error
response instead of openings. -/
theorem C5_no_emptiness_guard (now : Int) (rs : List JobRequisition) (r : JobRequisition)
    (hr : r ∈ rs) :
    (r.organizationalUnits = [] →
       processRequisition now r = .error .emptyOrganizationalUnits ∧
       ∃ e, restructureList now [] rs = .error e)
    ∧ (∀ ou, r.organizationalUnits.head? = some ou →
        ou.nameCode.shortName.getD "Others" ≠ "All" →
        r.postingInstructions = [] →
        processRequisition now r = .error .emptyPostingInstructions ∧
        ∃ e, restructureList now [] rs = .error e)
    ∧ (∀ ou pi, r.organizationalUnits.head? = some ou →
        ou.nameCode.shortName.getD "Others" ≠ "All" →
        r.postingInstructions.head? = some pi →
        r.requisitionLocations = [] →
        processRequisition now r = .error .emptyRequisitionLocations ∧
        ∃ e, restructureList now [] rs = .error e)
    ∧ (∀ (u : Upstream) (fuel : Nat) (sk : List Nat) (req : Requisition)
          (te : TransformError),
        fetchJobRequisitions u fuel = some (sk, .ok req) →
        restructureOpenings now req = .error te →
        GET now u fuel = some { status := 500, body := .err (transformErrorMessage te) }) := by
  refine ⟨?_, ?_, ?_, ?_⟩
  · intro h0
    have hp : processRequisition now r = .error .emptyOrganizationalUnits :=
      process_error_orgUnits h0
    exact ⟨hp, restructureList_error_of_mem hr hp⟩
  · intro ou hou hall hpost
    have hp : processRequisition now r = .error .emptyPostingInstructions :=
      process_error_postings hou hall hpost
    exact ⟨hp, restructureList_error_of_mem hr hp⟩
  · intro ou pi hou hall hpi hlocs
    have hp : processRequisition now r = .error .emptyRequisitionLocations :=
      process_error_locations hou hall hpi hlocs
    exact ⟨hp, restructureList_error_of_mem hr hp⟩
  · intro u fuel sk req te hf ht
    exact GET_transform_error hf ht

/-- C5 witness: a record with empty organizationalUnits reaches the error
branch and fails the whole traversal. -/
theorem C5_no_emptiness_guard_witness :
    processRequisition 100 emptyOrgReq = .error .emptyOrganizationalUnits ∧
    ∃ e, restructureList 100 [] [sampleReq, emptyOrgReq] = .error e :=
  (C5_no_emptiness_guard 100 [sampleReq, emptyOrgReq] emptyOrgReq (by simp)).1 rfl

/-- C6: a failing page request makes the whole pagination loop fail at once,
discarding every record accumulated so far, and the handler then responds
with the upstream status (500 when none is available) and a JSON error body,
returning no partial openings. -/
theorem C6_page_failure_aborts (now : Int) (u : Upstream) (fuel skip : Nat)
    (reqs : List Nat) (acc : List JobRequisition) (e : AxiosErr)
    (hp : u.page skip = .error e) :
    fetchLoop u (fuel + 1) skip reqs acc =
      some (reqs ++ [skip], .error { message := e.message, responseStatus := e.status })
    ∧ (∀ (fuel2 : Nat) (sk : List Nat) (m : String) (st : Option Nat),
        fetchJobRequisitions u fuel2 = some (sk, .error { message := m, responseStatus := st }) →
        GET now u fuel2 = some { status := st.getD 500, body := .err m }) := by
  constructor
  · rw [fetchLoop, hp]
  · intro fuel2 sk m st h
    unfold GET
    rw [h]

/-- C6 witness: a concrete upstream whose first page fails with HTTP 503
yields an aborted fetch and a 503 error response with no openings. -/
theorem C6_page_failure_aborts_witness :
    fetchLoop pageFailUpstream 1 0 [] [] =
      some ([0], .error { message := "Request failed with status code 503"
                          responseStatus := some 503 })
    ∧ GET 0 pageFailUpstream 1 =
        some { status := 503, body := .err "Request failed with status code 503" } := by
  have h := C6_page_failure_aborts 0 pageFailUpstream 0 0 [] []
    { message := "Request failed with status code 503", status := some 503 } rfl
  exact ⟨h.1, h.2 1 [0] "Request failed with status code 503" (some 503) rfl⟩

/-- C7: a requisition whose first organizational unit has no short name is
grouped under the department key "Others": it yields the pair
`("Others", opening)` and its Opening lies in the "Others" bucket of any
successful output containing it. -/
theorem C7_missing_department_others (now : Int) (r : JobRequisition) (ou : OrgUnit)
    (pi : PostingInstruction) (loc : ReqLocation)
    (hou : r.organizationalUnits.head? = some ou)
    (hsn : ou.nameCode.shortName = none)
    (hpi : r.postingInstructions.head? = some pi)
    (hloc : r.requisitionLocations.head? = some loc)
    (hexp : isExpired now pi.expireDate = false) :
    processRequisition now r = .ok (some ("Others", mkOpening r pi loc))
    ∧ (∀ rs meta m, r ∈ rs →
        restructureOpenings now { jobRequisitions := rs, meta := meta } = .ok m →
        mkOpening r pi loc ∈ valueAt "Others" m) := by
  have hgd : ou.nameCode.shortName.getD "Others" = "Others" := by
    rw [hsn]
    rfl
  have hproc : processRequisition now r = .ok (some ("Others", mkOpening r pi loc)) := by
    have h0 := process_included hou (by rw [hgd]; decide) hpi hloc hexp
    rw [hgd] at h0
    exact h0
  refine ⟨hproc, ?_⟩
  intro rs meta m hmem h
  have hm := restructureList_ok_eq h
  rw [hm, valueAt_groupPairs]
  rw [show valueAt "Others" ([] : OpeningsByDepartment) = [] from rfl, List.nil_append]
  unfold bucketPairs
  refine List.mem_filterMap.mpr ⟨("Others", mkOpening r pi loc), ?_, by simp⟩
  exact List.mem_filterMap.mpr ⟨r, hmem, kept_of_process_some hproc⟩

/-- C7 witness: the concrete record with no department short name lands in
the "Others" bucket. -/
theorem C7_missing_department_others_witness :
    processRequisition 100 othersReq =
      .ok (some ("Others", mkOpening othersReq samplePosting sampleLocation))
    ∧ mkOpening othersReq samplePosting sampleLocation ∈
        valueAt "Others" [("Others", [mkOpening othersReq samplePosting sampleLocation])] := by
  have h := C7_missing_department_others 100 othersReq sampleOrgUnitNoName samplePosting
    sampleLocation rfl rfl rfl rfl (by decide)
  exact ⟨h.1, h.2 [othersReq] { totalNumber := 1 }
    [("Others", [mkOpening othersReq samplePosting sampleLocation])] (by simp) rfl⟩

/-- C8: the application link of a produced Opening is the href of the first
link (in input order) whose title exactly equals "HL External Career Center";
with no such link it is the empty string. -/
theorem C8_link_extraction (now : Int) (r : JobRequisition) :
    ((∀ l ∈ r.links, l.title ≠ "HL External Career Center") → openingLink r = "")
    ∧ (∀ pre l post, r.links = pre ++ l :: post →
        l.title = "HL External Career Center" →
        (∀ l2 ∈ pre, l2.title ≠ "HL External Career Center") →
        openingLink r = l.href)
    ∧ (∀ d o, kept now r = some (d, o) → o.openingLink = openingLink r) := by
  refine ⟨?_, ?_, ?_⟩
  · intro hnone
    unfold openingLink
    rw [List.find?_eq_none.mpr ?_]
    · rfl
    · intro l hl
      simpa using hnone l hl
  · intro pre l post hlinks htitle hpre
    unfold openingLink
    rw [hlinks, List.find?_append,
      List.find?_eq_none.mpr (fun l2 hl2 => by simpa using hpre l2 hl2)]
    simp [List.find?_cons, htitle]
  · intro d o hk
    obtain ⟨ou, pi, loc, h1, h2, h3, h4, h5, h6, h7⟩ :=
      process_ok_some (process_of_kept hk)
    rw [h7]
    rfl

/-- C8 witness: no link yields the empty string; the sample link with the
matching title is extracted. -/
theorem C8_link_extraction_witness :
    openingLink noLinkReq = "" ∧ openingLink sampleReq = sampleLink.href :=
  ⟨(C8_link_extraction 100 noLinkReq).1 (by simp [noLinkReq, sampleReq]),
   (C8_link_extraction 100 sampleReq).2.1 [] sampleLink [] rfl rfl (by simp)⟩

/-- C9: in a successful output, department keys appear in first-encounter
order of the kept pairs of the input sequence (a fresh key is appended at the
end, an existing one is left in place), and every department bucket lists the
kept Openings of that department in input order — no sorting, deduplication,
or merging across departments. -/
theorem C9_grouping_order (now : Int) (rs : List JobRequisition) (meta : ReqMeta)
    (m : OpeningsByDepartment)
    (h : restructureOpenings now { jobRequisitions := rs, meta := meta } = .ok m) :
    m.map Prod.fst = ((rs.filterMap (kept now)).map Prod.fst).foldl insertKey []
    ∧ (∀ d, valueAt d m = bucketPairs d (rs.filterMap (kept now))) := by
  have hm := restructureList_ok_eq h
  constructor
  · rw [hm, keys_groupPairs]
    rfl
  · intro d
    rw [hm, valueAt_groupPairs]
    rw [show valueAt d ([] : OpeningsByDepartment) = [] from rfl, List.nil_append]

/-- C9 witness: an input interleaving two departments keeps first-encounter
key order and per-department input order. -/
theorem C9_grouping_order_witness :
    ([("Engineering", [mkOpening sampleReq samplePosting sampleLocation,
        mkOpening sampleReq samplePosting sampleLocation]),
      ("Others", [mkOpening othersReq samplePosting sampleLocation])].map Prod.fst)
      = ((([sampleReq, othersReq, sampleReq]).filterMap (kept 100)).map Prod.fst).foldl
          insertKey [] :=
  (C9_grouping_order 100 [sampleReq, othersReq, sampleReq] { totalNumber := 3 }
    [("Engineering", [mkOpening sampleReq samplePosting sampleLocation,
        mkOpening sampleReq samplePosting sampleLocation]),
      ("Others", [mkOpening othersReq samplePosting sampleLocation])] rfl).1

/-- C10: the transform is a pure function of the input sequence and the
current date: two runs on the same fixed input produce identical grouped
outputs (the embedding is side-effect free, so the input sequence is left
unchanged by construction). -/
theorem C10_transform_deterministic (now : Int) (r1 r2 : Requisition) (h : r1 = r2) :
    restructureOpenings now r1 = restructureOpenings now r2 := by
  rw [h]

/-- C10 witness: two runs on the same concrete input agree. -/
theorem C10_transform_deterministic_witness :
    restructureOpenings 100 { jobRequisitions := [sampleReq], meta := { totalNumber := 1 } } =
      restructureOpenings 100 { jobRequisitions := [sampleReq], meta := { totalNumber := 1 } } :=
  C10_transform_deterministic 100
    { jobRequisitions := [sampleReq], meta := { totalNumber := 1 } }
    { jobRequisitions := [sampleReq], meta := { totalNumber := 1 } } rfl

end HiddenLevel
